import Mathlib

set_option maxHeartbeats 1000000

/- Shallow embedding of src/bin/pg_autoctl/pghba.c and of the topology bounds
   declared in src/bin/pg_autoctl/archiver.h (pg_auto_failover).

   External collaborators of pghba.c (the IP classifier from ipaddr.c, the
   skip-sentinel test SKIP_HBA from pghba.h, the hostname and CIDR resolvers,
   the live-server HBA path query and configuration reload from pgctl.c, and
   the file system) are passed in as explicit parameters, following the spec's
   statement that they are consumed as pure functions with stated contracts.
   The file system is a map from path to optional contents; a read of a path
   mapped to none is a read_file failure, and a boolean parameter tells
   whether write_file succeeds. -/

/-- HBADatabaseType, as used by pghba.c (declared in pghba.h). -/
inductive HBADatabaseType
  | HBA_DATABASE_ALL
  | HBA_DATABASE_REPLICATION
  | HBA_DATABASE_DBNAME
  deriving DecidableEq

/-- Result of ip_address_type from ipaddr.c, an external collaborator. -/
inductive IPType
  | IPTYPE_V4
  | IPTYPE_V6
  | IPTYPE_NONE
  deriving DecidableEq

/-- HBA_LINE_COMMENT from pghba.c: the fixed trailing comment appended after
the rendered rule line. -/
def HBA_LINE_COMMENT : String := " # Auto-generated by pg_auto_failover"

/-- Character-level body of escape_hba_string: every literal double quote in
the value is written twice. -/
def escapeHbaChars : List Char → List Char
  | [] => []
  | c :: cs => if c = '"' then '"' :: c :: escapeHbaChars cs else c :: escapeHbaChars cs

/-- escape_hba_string from pghba.c: writes an opening double quote, then the
input with every double quote doubled, then a closing double quote. The C
function also returns the number of characters written and writes into a
bounded buffer; per the spec the truncation case is unreachable and the
count is unused by callers shown here. -/
def escape_hba_string (hbaString : String) : String :=
  String.mk ('"' :: (escapeHbaChars hbaString.data ++ ['"']))

/-- append_database_field from pghba.c. -/
def append_database_field (databaseType : HBADatabaseType) (databaseName : String) : String :=
  match databaseType with
  | .HBA_DATABASE_ALL => "all"
  | .HBA_DATABASE_REPLICATION => "replication"
  | .HBA_DATABASE_DBNAME => escape_hba_string databaseName

/-- append_hostname_or_cidr from pghba.c, parameterized by the external
classifier ip_address_type from ipaddr.c. -/
def append_hostname_or_cidr (ip_address_type : String → IPType) (host : String) : String :=
  match ip_address_type host with
  | .IPTYPE_V4 => host ++ "/32"
  | .IPTYPE_V6 => host ++ "/128"
  | .IPTYPE_NONE => host

/-- The rule line built into hbaLineBuffer by pghba_ensure_host_rule_exists:
"hostssl " or "host ", the database field, a space, the user field ("all "
when username is NULL, else the escaped username and a space), the host
field, one space and the authentication scheme. -/
def hbaLine (ip_address_type : String → IPType) (ssl : Bool)
    (databaseType : HBADatabaseType) (database : String) (username : Option String)
    (host : String) (authenticationScheme : String) : String :=
  (if ssl then "hostssl " else "host ")
    ++ append_database_field databaseType database
    ++ " "
    ++ (match username with
        | some u => escape_hba_string u ++ " "
        | none => "all ")
    ++ append_hostname_or_cidr ip_address_type host
    ++ " " ++ authenticationScheme

/-- Index of the first occurrence of pat as a contiguous substring of hay,
modelling strstr from the C library as used at pghba.c:120 (strstr returns
the first occurrence). -/
def firstMatchIdx (hay pat : List Char) : Option Nat :=
  if pat.isPrefixOf hay then some 0
  else
    match hay with
    | [] => none
    | _ :: rest => (firstMatchIdx rest pat).map (fun n => n + 1)

/-- The check at pghba.c:126: the first strstr occurrence of line exists and
either starts at the beginning of the file contents or is immediately
preceded by a newline character. -/
def lineFoundAnchored (contents line : String) : Bool :=
  match firstMatchIdx contents.data line.data with
  | none => false
  | some 0 => true
  | some (i + 1) => contents.data[i]? == some '\n'

/-- Result of one call to pghba_ensure_host_rule_exists: the file contents
after the call (none when the file was unreadable), the boolean return
value, the rule logged at warning level when the skip sentinel is active,
and whether the call wrote the file. -/
structure EnsureResult where
  contents : Option String
  success : Bool
  warnedSkipRule : Option String
  wrote : Bool
  deriving DecidableEq

/-- pghba_ensure_host_rule_exists from pghba.c. Allocation failures are
treated as unreachable per the spec. skip_hba is the SKIP_HBA test from
pghba.h on the authentication scheme; writeOk tells whether write_file
succeeds; contentsRead is the read_file result. When the skip sentinel is
active the function warns with the rendered rule and returns true without
reading or writing the file. Otherwise it reads the file, skips when the
first strstr occurrence of the rule line is anchored at a line start, and
else rewrites the file as the old contents followed by the rule line, the
fixed comment and a newline. -/
def pghba_ensure_host_rule_exists (ip_address_type : String → IPType)
    (skip_hba : String → Bool) (writeOk : Bool) (contentsRead : Option String)
    (ssl : Bool) (databaseType : HBADatabaseType) (database : String)
    (username : Option String) (host : String)
    (authenticationScheme : String) : EnsureResult :=
  let line := hbaLine ip_address_type ssl databaseType database username host
    authenticationScheme
  if skip_hba authenticationScheme then
    { contents := contentsRead, success := true, warnedSkipRule := some line, wrote := false }
  else
    match contentsRead with
    | none => { contents := none, success := false, warnedSkipRule := none, wrote := false }
    | some contents =>
      if lineFoundAnchored contents line then
        { contents := some contents, success := true, warnedSkipRule := none, wrote := false }
      else if writeOk then
        { contents := some (contents ++ line ++ HBA_LINE_COMMENT ++ "\n"),
          success := true, warnedSkipRule := none, wrote := true }
      else
        { contents := some contents, success := false, warnedSkipRule := none, wrote := false }

/-- Distinct return sites of pghba_enable_lan_cidr, one per log/return path
in the C function, so that its distinct error reports can be told apart. -/
inductive LanOutcome
  | ok
  | addressNotFoundSkipped
  | addressNotFound
  | cidrNotFoundSkipped
  | cidrNotFound
  | hbaPathNotFound
  | hbaEditFailed
  | reloadFailed
  deriving DecidableEq

/-- Result of one call to pghba_enable_lan_cidr: the file system after the
call, the boolean return value, whether pgsql_reload_conf was called, and
which return site was taken. -/
structure LanResult where
  files : String → Option String
  success : Bool
  reloadAttempted : Bool
  outcome : LanOutcome

/-- The rule-file path used by pghba_enable_lan_cidr: when pgdata is given
(server not yet started) the path is pgdata/pg_hba.conf by convention;
otherwise it is the live-server answer to pgsql_get_hba_file_path (none
models that query failing). -/
def lanHbaFilePath (pgsql_get_hba_file_path : Option String)
    (pgdata : Option String) : Option String :=
  match pgdata with
  | none => pgsql_get_hba_file_path
  | some dir => some (dir ++ "/pg_hba.conf")

/-- pghba_enable_lan_cidr from pghba.c. findHostnameLocalAddress and
fetchLocalCIDR are the resolvers from ipaddr.c (none models their false
return); pgsql_get_hba_file_path is the live-server path query result;
pgsql_reload_conf tells whether the configuration reload succeeds; files is
the file system. When pgdata is given, the HBA path is pgdata/pg_hba.conf
and no reload happens; the reload is also skipped when the skip sentinel is
active (short-circuit at pghba.c:371). -/
def pghba_enable_lan_cidr (ip_address_type : String → IPType)
    (skip_hba : String → Bool)
    (findHostnameLocalAddress : String → Option String)
    (fetchLocalCIDR : String → Option String)
    (pgsql_get_hba_file_path : Option String)
    (pgsql_reload_conf : Bool)
    (writeOk : Bool)
    (files : String → Option String)
    (ssl : Bool) (databaseType : HBADatabaseType) (database : String)
    (hostname : String) (username : Option String)
    (authenticationScheme : String) (pgdata : Option String) : LanResult :=
  match findHostnameLocalAddress hostname with
  | none =>
    { files := files, success := skip_hba authenticationScheme, reloadAttempted := false,
      outcome := if skip_hba authenticationScheme then .addressNotFoundSkipped
                 else .addressNotFound }
  | some ipAddr =>
    match fetchLocalCIDR ipAddr with
    | none =>
      { files := files, success := skip_hba authenticationScheme, reloadAttempted := false,
        outcome := if skip_hba authenticationScheme then .cidrNotFoundSkipped
                   else .cidrNotFound }
    | some cidr =>
      match lanHbaFilePath pgsql_get_hba_file_path pgdata with
      | none =>
        { files := files, success := false, reloadAttempted := false,
          outcome := .hbaPathNotFound }
      | some hbaFilePath =>
        let r := pghba_ensure_host_rule_exists ip_address_type skip_hba writeOk
          (files hbaFilePath) ssl databaseType database username cidr
          authenticationScheme
        let newFiles := if r.wrote then
            (fun p => if p = hbaFilePath then r.contents else files p)
          else files
        if r.success then
          if (pgdata.isNone && ! skip_hba authenticationScheme) && ! pgsql_reload_conf then
            { files := newFiles, success := false, reloadAttempted := true,
              outcome := .reloadFailed }
          else
            { files := newFiles, success := true,
              reloadAttempted := pgdata.isNone && ! skip_hba authenticationScheme,
              outcome := .ok }
        else
          { files := newFiles, success := false, reloadAttempted := false,
            outcome := .hbaEditFailed }

/- Topology bounds from archiver.h. -/

/-- MAX_ARCHIVER_GROUP_COUNT from archiver.h. -/
def MAX_ARCHIVER_GROUP_COUNT : Nat := 12

/-- MAX_ARCHIVER_FORMATION_COUNT from archiver.h. -/
def MAX_ARCHIVER_FORMATION_COUNT : Nat := 12

/-- ArchiverFormation from archiver.h: a formation name and its group ids
(the GroupArray count plus its used prefix are modelled as a list). -/
structure ArchiverFormation where
  formation : String
  groups : List Int
  deriving DecidableEq

/-- FormationArray from archiver.h: the count plus the used prefix of the
fixed-capacity array are modelled as a list; validation enforces the
capacity bound MAX_ARCHIVER_FORMATION_COUNT. -/
structure FormationArray where
  array : List ArchiverFormation
  deriving DecidableEq

/-- Modelled from the spec: the TopologyModel validate operation is not part
of the sources at hand (only the fixed-capacity structures of archiver.h
are). Per the spec it rejects a snapshot whose formation count exceeds the
fixed bound, whose group count within any formation exceeds the fixed
bound, or that contains a duplicate formation name or a duplicate group id
within one formation, and adopts no part of a rejected snapshot; acceptance
adopts the snapshot into the bounded FormationArray. -/
def topology_validate (snapshot : List ArchiverFormation) : Option FormationArray :=
  if snapshot.length ≤ MAX_ARCHIVER_FORMATION_COUNT
      ∧ (snapshot.map ArchiverFormation.formation).Nodup
      ∧ ∀ f ∈ snapshot,
          f.groups.length ≤ MAX_ARCHIVER_GROUP_COUNT ∧ f.groups.Nodup then
    some { array := snapshot }
  else
    none

/- Specification-side definitions, written from the spec's words, used to
   state the claims about the code-side definitions above. -/

/-- Spec-side: the rule line occurs in the file contents at index i. -/
def occursAt (contents line : String) (i : Nat) : Prop :=
  List.IsPrefix line.data (contents.data.drop i)

/-- Spec-side: index i of the file contents begins at file start or
immediately after a newline character. -/
def anchoredAt (contents : String) (i : Nat) : Prop :=
  i = 0 ∨ contents.data[i - 1]? = some '\n'

instance (contents line : String) (i : Nat) : Decidable (occursAt contents line i) :=
  inferInstanceAs (Decidable (List.IsPrefix line.data (contents.data.drop i)))

instance (contents : String) (i : Nat) : Decidable (anchoredAt contents i) :=
  inferInstanceAs (Decidable (i = 0 ∨ contents.data[i - 1]? = some '\n'))

/-- Spec-side un-escape of a quoted segment: each doubled double quote
collapses to one literal double quote. -/
def collapseDoubledQuotes : List Char → List Char
  | [] => []
  | [c] => [c]
  | c :: d :: cs =>
    if c = '"' ∧ d = '"' then '"' :: collapseDoubledQuotes cs
    else c :: collapseDoubledQuotes (d :: cs)

/-- Spec-side matching un-escape of render's quoted segment: strip the outer
double quotes and collapse each doubled double quote. -/
def unescape_hba_string (quoted : String) : String :=
  String.mk (collapseDoubledQuotes ((quoted.data.drop 1).dropLast))

/-- Spec-side: the newline-separated segments of a character sequence. -/
def splitLinesChars : List Char → List (List Char)
  | [] => [[]]
  | c :: cs =>
    let rest := splitLinesChars cs
    if c = '\n' then [] :: rest
    else (c :: rest.headD []) :: rest.tail

/-- Spec-side: the lines of a text file; a final newline terminates the last
line rather than opening an empty one. -/
def fileLines (s : String) : List String :=
  let segs := (splitLinesChars s.data).map String.mk
  if s.data = [] ∨ s.data.getLast? = some '\n' then segs.dropLast else segs

/- Concrete instantiations of the external collaborators, used by the
   closed witness and counterexample statements. -/

/-- A classifier that recognizes no IP literal (every host is a hostname or
a pre-formed CIDR). -/
def iptNone : String → IPType := fun _ => IPType.IPTYPE_NONE

/-- A classifier that recognizes every host as an IPv4 literal. -/
def iptV4 : String → IPType := fun _ => IPType.IPTYPE_V4

/-- A classifier that recognizes every host as an IPv6 literal. -/
def iptV6 : String → IPType := fun _ => IPType.IPTYPE_V6

/-- The skip-sentinel test: the designated sentinel authentication method of
the sources is the string "skip" (selected by the option named in
pghba.c:100). -/
def skipIsSkip : String → Bool := fun s => s == "skip"

/-- A resolver that finds a local address for every hostname. -/
def findAddrSome : String → Option String := fun _ => some "192.0.2.1"

/-- A CIDR lookup that always succeeds. -/
def fetchCIDRSome : String → Option String := fun _ => some "10.0.0.0/24"

/-- A CIDR lookup that always fails. -/
def fetchCIDRNone : String → Option String := fun _ => none

/-- A file system where every file exists and is empty. -/
def filesEmpty : String → Option String := fun _ => some ""

/-- File contents where the candidate rule line occurs first as a mid-line
substring (inside the xhost line) and then line-anchored after a newline. -/
def cexContents : String := "xhost all all h md5\nhost all all h md5\n"

/-- A snapshot of thirteen formations, one more than the fixed maximum. -/
def snap13 : List ArchiverFormation :=
  [{ formation := "a", groups := [] }, { formation := "b", groups := [] },
   { formation := "c", groups := [] }, { formation := "d", groups := [] },
   { formation := "e", groups := [] }, { formation := "f", groups := [] },
   { formation := "g", groups := [] }, { formation := "h", groups := [] },
   { formation := "i", groups := [] }, { formation := "j", groups := [] },
   { formation := "k", groups := [] }, { formation := "l", groups := [] },
   { formation := "m", groups := [] }]

/- Helper lemmas. -/

lemma escapeHbaChars_eq_nil_iff (cs : List Char) : escapeHbaChars cs = [] ↔ cs = [] := by
  cases cs with
  | nil => simp [escapeHbaChars]
  | cons c cs =>
    simp only [escapeHbaChars]
    split <;> simp

lemma collapse_escape (l : List Char) :
    collapseDoubledQuotes (escapeHbaChars l) = l := by
  induction l with
  | nil => rfl
  | cons c cs ih =>
    by_cases hc : c = '"'
    · subst hc
      simp only [escapeHbaChars, if_pos rfl]
      simp [collapseDoubledQuotes, ih]
    · simp only [escapeHbaChars, if_neg hc]
      cases h : escapeHbaChars cs with
      | nil =>
        have hcs : cs = [] := (escapeHbaChars_eq_nil_iff cs).mp h
        subst hcs
        rfl
      | cons d ds =>
        rw [h] at ih
        simp [collapseDoubledQuotes, hc, ih]

lemma stringMk_data (s : String) : String.mk s.data = s := rfl

/-- C5: for any value, escape_hba_string wraps it in double quotes doubling
every interior double quote, and the matching un-escape of the quoted
segment (strip the outer quotes, collapse each doubled quote) reproduces
the original value exactly. -/
theorem escape_hba_string_roundtrip (s : String) :
    unescape_hba_string (escape_hba_string s) = s := by
  unfold unescape_hba_string escape_hba_string
  simp only [List.drop_succ_cons, List.drop_zero, List.dropLast_concat, collapse_escape,
    stringMk_data]

/-- C6: for every host string and classifier outcome, append_hostname_or_cidr
emits the host followed by "/32" for an IPv4 literal, the host followed by
"/128" for an IPv6 literal, and the host unchanged otherwise. -/
theorem append_hostname_or_cidr_cases (ip_address_type : String → IPType) (host : String) :
    (ip_address_type host = IPType.IPTYPE_V4 →
        append_hostname_or_cidr ip_address_type host = host ++ "/32") ∧
    (ip_address_type host = IPType.IPTYPE_V6 →
        append_hostname_or_cidr ip_address_type host = host ++ "/128") ∧
    (ip_address_type host = IPType.IPTYPE_NONE →
        append_hostname_or_cidr ip_address_type host = host) := by
  refine ⟨fun h => ?_, fun h => ?_, fun h => ?_⟩ <;> simp [append_hostname_or_cidr, h]

theorem append_hostname_or_cidr_cases_witness :
    append_hostname_or_cidr iptV4 "192.0.2.7" = "192.0.2.7/32" ∧
    append_hostname_or_cidr iptV6 "fe80::1" = "fe80::1/128" ∧
    append_hostname_or_cidr iptNone "example.com" = "example.com" :=
  ⟨(append_hostname_or_cidr_cases iptV4 "192.0.2.7").1 rfl,
   (append_hostname_or_cidr_cases iptV6 "fe80::1").2.1 rfl,
   (append_hostname_or_cidr_cases iptNone "example.com").2.2 rfl⟩

/-- C10: when the skip sentinel is active, pghba_ensure_host_rule_exists
returns success with the rendered rule recorded at warning level, without
reading or writing the rule file: the result is the same for every file
state, which is returned unchanged, and no write happens. -/
theorem ensure_skip_sentinel_no_file_access (ip_address_type : String → IPType)
    (skip_hba : String → Bool) (writeOk : Bool) (contentsRead : Option String)
    (ssl : Bool) (databaseType : HBADatabaseType) (database : String)
    (username : Option String) (host : String) (authenticationScheme : String)
    (h : skip_hba authenticationScheme = true) :
    pghba_ensure_host_rule_exists ip_address_type skip_hba writeOk contentsRead ssl
        databaseType database username host authenticationScheme =
      { contents := contentsRead, success := true,
        warnedSkipRule := some (hbaLine ip_address_type ssl databaseType database
          username host authenticationScheme),
        wrote := false } := by
  simp [pghba_ensure_host_rule_exists, h]

theorem ensure_skip_sentinel_no_file_access_witness :
    pghba_ensure_host_rule_exists iptNone skipIsSkip true none false
        HBADatabaseType.HBA_DATABASE_ALL "" none "h" "skip" =
      { contents := none, success := true,
        warnedSkipRule := some "host all all h skip", wrote := false } :=
  ensure_skip_sentinel_no_file_access iptNone skipIsSkip true none false
    HBADatabaseType.HBA_DATABASE_ALL "" none "h" "skip" rfl

/-- C7: when the local address for the hostname cannot be resolved,
pghba_enable_lan_cidr leaves every file untouched and attempts no reload;
it returns failure when the authentication method is not a skip sentinel
and success when it is. -/
theorem lan_address_failure_fatal_unless_skip (ip_address_type : String → IPType)
    (skip_hba : String → Bool) (findHostnameLocalAddress : String → Option String)
    (fetchLocalCIDR : String → Option String) (pgsql_get_hba_file_path : Option String)
    (pgsql_reload_conf : Bool) (writeOk : Bool) (files : String → Option String)
    (ssl : Bool) (databaseType : HBADatabaseType) (database : String)
    (hostname : String) (username : Option String) (authenticationScheme : String)
    (pgdata : Option String)
    (haddr : findHostnameLocalAddress hostname = none) :
    (pghba_enable_lan_cidr ip_address_type skip_hba findHostnameLocalAddress
        fetchLocalCIDR pgsql_get_hba_file_path pgsql_reload_conf writeOk files ssl
        databaseType database hostname username authenticationScheme pgdata).files = files ∧
    (pghba_enable_lan_cidr ip_address_type skip_hba findHostnameLocalAddress
        fetchLocalCIDR pgsql_get_hba_file_path pgsql_reload_conf writeOk files ssl
        databaseType database hostname username authenticationScheme pgdata).reloadAttempted
      = false ∧
    (pghba_enable_lan_cidr ip_address_type skip_hba findHostnameLocalAddress
        fetchLocalCIDR pgsql_get_hba_file_path pgsql_reload_conf writeOk files ssl
        databaseType database hostname username authenticationScheme pgdata).success
      = skip_hba authenticationScheme := by
  simp [pghba_enable_lan_cidr, haddr]

theorem lan_address_failure_fatal_unless_skip_witness :
    (pghba_enable_lan_cidr iptNone skipIsSkip (fun _ => none) fetchCIDRSome (some "p")
        true true filesEmpty false HBADatabaseType.HBA_DATABASE_ALL "" "h" none "trust"
        none).files = filesEmpty ∧
    (pghba_enable_lan_cidr iptNone skipIsSkip (fun _ => none) fetchCIDRSome (some "p")
        true true filesEmpty false HBADatabaseType.HBA_DATABASE_ALL "" "h" none "trust"
        none).reloadAttempted = false ∧
    (pghba_enable_lan_cidr iptNone skipIsSkip (fun _ => none) fetchCIDRSome (some "p")
        true true filesEmpty false HBADatabaseType.HBA_DATABASE_ALL "" "h" none "trust"
        none).success = skipIsSkip "trust" :=
  lan_address_failure_fatal_unless_skip iptNone skipIsSkip (fun _ => none) fetchCIDRSome
    (some "p") true true filesEmpty false HBADatabaseType.HBA_DATABASE_ALL "" "h" none
    "trust" none rfl

/-- C4 as stated is false: with a non-skip authentication scheme ("trust"),
a resolved local address and a failed enclosing-CIDR lookup make
pghba_enable_lan_cidr return failure to its caller (pghba.c:331 returns
false when the skip sentinel is not active). -/
theorem lan_cidr_lookup_failure_not_success_cex :
    (pghba_enable_lan_cidr iptNone skipIsSkip findAddrSome fetchCIDRNone (some "p")
        true true filesEmpty false HBADatabaseType.HBA_DATABASE_ALL "" "h" none "trust"
        none).success = false := rfl

/-- C4 amended: when the local address resolves but the enclosing-CIDR
lookup fails, pghba_enable_lan_cidr logs a warning, skips the
synchronization step (no file is touched and no reload is attempted) and
returns success exactly when the skip sentinel is active; for a non-skip
scheme the skipped step is still reported as a failure to the caller. -/
theorem lan_cidr_lookup_failure_warns_and_skips (ip_address_type : String → IPType)
    (skip_hba : String → Bool) (findHostnameLocalAddress : String → Option String)
    (fetchLocalCIDR : String → Option String) (pgsql_get_hba_file_path : Option String)
    (pgsql_reload_conf : Bool) (writeOk : Bool) (files : String → Option String)
    (ssl : Bool) (databaseType : HBADatabaseType) (database : String)
    (hostname : String) (username : Option String) (authenticationScheme : String)
    (pgdata : Option String) (ipAddr : String)
    (haddr : findHostnameLocalAddress hostname = some ipAddr)
    (hcidr : fetchLocalCIDR ipAddr = none) :
    (pghba_enable_lan_cidr ip_address_type skip_hba findHostnameLocalAddress
        fetchLocalCIDR pgsql_get_hba_file_path pgsql_reload_conf writeOk files ssl
        databaseType database hostname username authenticationScheme pgdata).files = files ∧
    (pghba_enable_lan_cidr ip_address_type skip_hba findHostnameLocalAddress
        fetchLocalCIDR pgsql_get_hba_file_path pgsql_reload_conf writeOk files ssl
        databaseType database hostname username authenticationScheme pgdata).reloadAttempted
      = false ∧
    (pghba_enable_lan_cidr ip_address_type skip_hba findHostnameLocalAddress
        fetchLocalCIDR pgsql_get_hba_file_path pgsql_reload_conf writeOk files ssl
        databaseType database hostname username authenticationScheme pgdata).success
      = skip_hba authenticationScheme := by
  simp [pghba_enable_lan_cidr, haddr, hcidr]

theorem lan_cidr_lookup_failure_warns_and_skips_witness :
    (pghba_enable_lan_cidr iptNone skipIsSkip findAddrSome fetchCIDRNone (some "p")
        true true filesEmpty false HBADatabaseType.HBA_DATABASE_ALL "" "h" none "skip"
        none).files = filesEmpty ∧
    (pghba_enable_lan_cidr iptNone skipIsSkip findAddrSome fetchCIDRNone (some "p")
        true true filesEmpty false HBADatabaseType.HBA_DATABASE_ALL "" "h" none "skip"
        none).reloadAttempted = false ∧
    (pghba_enable_lan_cidr iptNone skipIsSkip findAddrSome fetchCIDRNone (some "p")
        true true filesEmpty false HBADatabaseType.HBA_DATABASE_ALL "" "h" none "skip"
        none).success = skipIsSkip "skip" :=
  lan_cidr_lookup_failure_warns_and_skips iptNone skipIsSkip findAddrSome fetchCIDRNone
    (some "p") true true filesEmpty false HBADatabaseType.HBA_DATABASE_ALL "" "h" none
    "skip" none "192.0.2.1" rfl rfl

lemma firstMatchIdx_some_iff (hay pat : List Char) (i : Nat) :
    firstMatchIdx hay pat = some i ↔
      pat.isPrefixOf (hay.drop i) = true ∧
      ∀ j, j < i → pat.isPrefixOf (hay.drop j) = false := by
  induction hay generalizing i with
  | nil =>
    rw [firstMatchIdx]
    cases hp : pat.isPrefixOf ([] : List Char) with
    | true =>
      rw [if_pos rfl]
      simp only [List.drop_nil]
      constructor
      · intro h
        have h0 := Option.some.inj h
        subst h0
        exact ⟨hp, fun j hj => absurd hj (Nat.not_lt_zero j)⟩
      · rintro ⟨-, h2⟩
        cases i with
        | zero => rfl
        | succ k =>
          have h0 := h2 0 (Nat.succ_pos k)
          rw [h0] at hp
          exact Bool.noConfusion hp
    | false =>
      rw [if_neg (by simp)]
      simp only [List.drop_nil]
      constructor
      · intro h
        exact Option.noConfusion h
      · rintro ⟨h1, -⟩
        rw [h1] at hp
        exact Bool.noConfusion hp
  | cons c rest ih =>
    rw [firstMatchIdx]
    cases hp : pat.isPrefixOf (c :: rest) with
    | true =>
      rw [if_pos rfl]
      constructor
      · intro h
        have h0 := Option.some.inj h
        subst h0
        exact ⟨by simpa using hp, fun j hj => absurd hj (Nat.not_lt_zero j)⟩
      · rintro ⟨h1, h2⟩
        cases i with
        | zero => rfl
        | succ k =>
          have h0 := h2 0 (Nat.succ_pos k)
          rw [List.drop_zero] at h0
          rw [h0] at hp
          exact Bool.noConfusion hp
    | false =>
      rw [if_neg (by simp)]
      constructor
      · intro h
        obtain ⟨n, hn, rfl⟩ := Option.map_eq_some'.mp h
        obtain ⟨h1, h2⟩ := (ih n).mp hn
        refine ⟨by simpa [List.drop_succ_cons] using h1, ?_⟩
        intro j hj
        cases j with
        | zero => simpa using hp
        | succ m =>
          rw [List.drop_succ_cons]
          exact h2 m (by omega)
      · rintro ⟨h1, h2⟩
        cases i with
        | zero =>
          rw [List.drop_zero] at h1
          rw [h1] at hp
          exact Bool.noConfusion hp
        | succ k =>
          have h1a : pat.isPrefixOf (rest.drop k) = true := by
            simpa [List.drop_succ_cons] using h1
          have h2a : ∀ j, j < k → pat.isPrefixOf (rest.drop j) = false := by
            intro j hj
            have := h2 (j + 1) (by omega)
            simpa [List.drop_succ_cons] using this
          rw [(ih k).mpr ⟨h1a, h2a⟩]
          rfl

lemma firstMatchIdx_none_iff (hay pat : List Char) :
    firstMatchIdx hay pat = none ↔ ∀ i, pat.isPrefixOf (hay.drop i) = false := by
  induction hay with
  | nil =>
    rw [firstMatchIdx]
    cases hp : pat.isPrefixOf ([] : List Char) with
    | true =>
      rw [if_pos rfl]
      constructor
      · intro h
        exact Option.noConfusion h
      · intro h
        have h0 := h 0
        rw [List.drop_nil] at h0
        rw [h0] at hp
        exact Bool.noConfusion hp
    | false =>
      rw [if_neg (by simp)]
      constructor
      · intro _ i
        rw [List.drop_nil]
        exact hp
      · intro _
        rfl
  | cons c rest ih =>
    rw [firstMatchIdx]
    cases hp : pat.isPrefixOf (c :: rest) with
    | true =>
      rw [if_pos rfl]
      constructor
      · intro h
        exact Option.noConfusion h
      · intro h
        have h0 := h 0
        rw [List.drop_zero] at h0
        rw [h0] at hp
        exact Bool.noConfusion hp
    | false =>
      rw [if_neg (by simp)]
      constructor
      · intro h i
        have hr : firstMatchIdx rest pat = none := by
          cases hfm : firstMatchIdx rest pat with
          | none => rfl
          | some n =>
            rw [hfm] at h
            simp at h
        cases i with
        | zero =>
          rw [List.drop_zero]
          exact hp
        | succ m =>
          rw [List.drop_succ_cons]
          exact (ih.mp hr) m
      · intro h
        have hall : ∀ j, pat.isPrefixOf (rest.drop j) = false := by
          intro j
          have := h (j + 1)
          rwa [List.drop_succ_cons] at this
        rw [ih.mpr hall]
        rfl

lemma isPrefixOf_eq_true_iff (l1 l2 : List Char) :
    l1.isPrefixOf l2 = true ↔ l1 <+: l2 :=
  List.isPrefixOf_iff_prefix

lemma firstMatchIdx_append_self (a pat rest : List Char)
    (hnone : firstMatchIdx a pat = none)
    (hend : a = [] ∨ ∃ b, a = b ++ ['\n'])
    (hnl : '\n' ∉ pat) :
    firstMatchIdx (a ++ (pat ++ rest)) pat = some a.length := by
  rw [firstMatchIdx_some_iff]
  refine ⟨?_, ?_⟩
  · rw [List.drop_left]
    exact (isPrefixOf_eq_true_iff pat (pat ++ rest)).mpr (List.prefix_append pat rest)
  · intro j hj
    by_contra hocc
    rw [Bool.not_eq_false] at hocc
    have hpre : pat <+: (a.drop j ++ (pat ++ rest)) := by
      rw [List.drop_append_eq_append_drop] at hocc
      have hj0 : j - a.length = 0 := by omega
      rw [hj0, List.drop_zero] at hocc
      exact (isPrefixOf_eq_true_iff _ _).mp hocc
    rcases le_or_lt pat.length (a.drop j).length with hle | hlt
    · have hps : pat <+: a.drop j :=
        List.prefix_of_prefix_length_le hpre (List.prefix_append (a.drop j) (pat ++ rest)) hle
      have hfalse := (firstMatchIdx_none_iff a pat).mp hnone j
      have htrue : pat.isPrefixOf (a.drop j) = true := (isPrefixOf_eq_true_iff _ _).mpr hps
      rw [htrue] at hfalse
      exact Bool.noConfusion hfalse
    · have hsp : a.drop j <+: pat :=
        List.prefix_of_prefix_length_le (List.prefix_append (a.drop j) (pat ++ rest)) hpre
          (Nat.le_of_lt hlt)
      rcases hend with rfl | ⟨b, rfl⟩
      · simp at hj
      · have hjb : j ≤ b.length := by
          rw [List.length_append] at hj
          simp at hj
          omega
        have hdrop : (b ++ ['\n']).drop j = b.drop j ++ ['\n'] := by
          rw [List.drop_append_eq_append_drop]
          have hz : j - b.length = 0 := by omega
          rw [hz, List.drop_zero]
        have hmem : '\n' ∈ (b ++ ['\n']).drop j := by
          rw [hdrop]
          exact List.mem_append_right _ (List.mem_singleton.mpr rfl)
        exact hnl (hsp.subset hmem)

lemma lineFoundAnchored_eq_true_of (contents line : String) (i : Nat)
    (hfm : firstMatchIdx contents.data line.data = some i)
    (hanch : i = 0 ∨ contents.data[i - 1]? = some '\n') :
    lineFoundAnchored contents line = true := by
  unfold lineFoundAnchored
  rw [hfm]
  cases i with
  | zero => rfl
  | succ k =>
    rcases hanch with h0 | hc
    · exact absurd h0 (by omega)
    · simp only [Nat.add_sub_cancel] at hc
      simp [hc]

lemma lineFoundAnchored_of_append (contents line tail : String)
    (hnone : firstMatchIdx contents.data line.data = none)
    (hend : contents.data = [] ∨ ∃ b, contents.data = b ++ ['\n'])
    (hnl : '\n' ∉ line.data) :
    lineFoundAnchored (contents ++ line ++ tail) line = true := by
  have hdata : (contents ++ line ++ tail).data =
      contents.data ++ (line.data ++ tail.data) := by
    simp [String.data_append]
  apply lineFoundAnchored_eq_true_of (contents ++ line ++ tail) line contents.data.length
  · rw [hdata]
    exact firstMatchIdx_append_self contents.data line.data tail.data hnone hend hnl
  · rcases hend with hnil | ⟨b, hb⟩
    · left
      rw [hnil]
      rfl
    · right
      rw [hdata, hb]
      have hlen : (b ++ ['\n']).length - 1 = b.length := by simp
      rw [hlen, List.getElem?_append, if_pos (by simp)]
      exact List.getElem?_concat_length b '\n'

lemma lineFoundAnchored_iff (contents line : String) :
    lineFoundAnchored contents line = true ↔
      ∃ i, occursAt contents line i ∧ anchoredAt contents i ∧
        ∀ j, j < i → ¬ occursAt contents line j := by
  constructor
  · intro h
    unfold lineFoundAnchored at h
    cases hfm : firstMatchIdx contents.data line.data with
    | none =>
      rw [hfm] at h
      exact Bool.noConfusion h
    | some i =>
      rw [hfm] at h
      obtain ⟨h1, h2⟩ := (firstMatchIdx_some_iff _ _ i).mp hfm
      refine ⟨i, (isPrefixOf_eq_true_iff _ _).mp h1, ?_, ?_⟩
      · cases i with
        | zero => exact Or.inl rfl
        | succ k =>
          right
          simp only [Nat.add_sub_cancel]
          have hb : (contents.data[k]? == some '\n') = true := h
          exact beq_iff_eq.mp hb
      · intro j hj hocc
        have hf := h2 j hj
        have ht : line.data.isPrefixOf (contents.data.drop j) = true :=
          (isPrefixOf_eq_true_iff _ _).mpr hocc
        rw [ht] at hf
        exact Bool.noConfusion hf
  · rintro ⟨i, hocc, hanch, hmin⟩
    have hfm : firstMatchIdx contents.data line.data = some i := by
      rw [firstMatchIdx_some_iff]
      refine ⟨(isPrefixOf_eq_true_iff _ _).mpr hocc, ?_⟩
      intro j hj
      by_contra hb
      rw [Bool.not_eq_false] at hb
      exact hmin j hj ((isPrefixOf_eq_true_iff _ _).mp hb)
    exact lineFoundAnchored_eq_true_of contents line i hfm hanch

lemma append_line_ne_self (contents L : String) :
    contents ++ L ++ HBA_LINE_COMMENT ++ "\n" ≠ contents := by
  intro h
  have hlen := congrArg String.length h
  rw [String.length_append, String.length_append, String.length_append] at hlen
  have h1 : ("\n" : String).length = 1 := rfl
  omega

/-- C1 amended: with a non-skip scheme and successful IO,
pghba_ensure_host_rule_exists leaves the file unchanged and reports success
if and only if the first strstr occurrence of the rendered rule line in the
current contents begins at file start or immediately after a newline; a
mid-line-only occurrence leads to a fresh append, and so does a
line-anchored occurrence preceded by an earlier mid-line occurrence, since
only the first occurrence is inspected. -/
theorem ensure_host_rule_noop_iff_first_match_anchored (ip_address_type : String → IPType)
    (skip_hba : String → Bool) (contents : String) (ssl : Bool)
    (databaseType : HBADatabaseType) (database : String) (username : Option String)
    (host : String) (authenticationScheme : String)
    (hskip : skip_hba authenticationScheme = false) :
    ((pghba_ensure_host_rule_exists ip_address_type skip_hba true (some contents) ssl
        databaseType database username host authenticationScheme).contents = some contents ∧
      (pghba_ensure_host_rule_exists ip_address_type skip_hba true (some contents) ssl
        databaseType database username host authenticationScheme).success = true) ↔
      ∃ i, occursAt contents (hbaLine ip_address_type ssl databaseType database username
            host authenticationScheme) i ∧
        anchoredAt contents i ∧
        ∀ j, j < i → ¬ occursAt contents (hbaLine ip_address_type ssl databaseType
            database username host authenticationScheme) j := by
  rw [← lineFoundAnchored_iff]
  cases hfound : lineFoundAnchored contents (hbaLine ip_address_type ssl databaseType
      database username host authenticationScheme) with
  | true =>
    simp [pghba_ensure_host_rule_exists, hskip, hfound]
  | false =>
    have hr : pghba_ensure_host_rule_exists ip_address_type skip_hba true (some contents)
        ssl databaseType database username host authenticationScheme =
        { contents := some (contents ++ hbaLine ip_address_type ssl databaseType database
            username host authenticationScheme ++ HBA_LINE_COMMENT ++ "\n"),
          success := true, warnedSkipRule := none, wrote := true } := by
      simp [pghba_ensure_host_rule_exists, hskip, hfound]
    rw [hr]
    simp only [Option.some.injEq]
    constructor
    · rintro ⟨hc, -⟩
      exact absurd hc (append_line_ne_self contents _)
    · intro h
      exact Bool.noConfusion h

theorem ensure_host_rule_noop_iff_first_match_anchored_witness :
    (pghba_ensure_host_rule_exists iptNone skipIsSkip true (some "host all all h md5\n")
        false HBADatabaseType.HBA_DATABASE_ALL "" none "h" "md5").contents =
      some "host all all h md5\n" ∧
    (pghba_ensure_host_rule_exists iptNone skipIsSkip true (some "host all all h md5\n")
        false HBADatabaseType.HBA_DATABASE_ALL "" none "h" "md5").success = true :=
  (ensure_host_rule_noop_iff_first_match_anchored iptNone skipIsSkip
      "host all all h md5\n" false HBADatabaseType.HBA_DATABASE_ALL "" none "h" "md5"
      rfl).mpr
    ⟨0, by decide, Or.inl rfl, fun j hj => absurd hj (Nat.not_lt_zero j)⟩

/-- C1 as stated is false: in cexContents the rendered rule line does occur
as a line-exact match (at index 20, immediately after a newline), yet
because its first strstr occurrence (index 1, a mid-line substring of the
xhost line) is not anchored, pghba_ensure_host_rule_exists appends a fresh
copy instead of leaving the file unchanged. -/
theorem ensure_host_rule_anchored_occurrence_missed_cex :
    (∃ i, occursAt cexContents (hbaLine iptNone false HBADatabaseType.HBA_DATABASE_ALL ""
        none "h" "md5") i ∧ anchoredAt cexContents i) ∧
    ¬ ((pghba_ensure_host_rule_exists iptNone skipIsSkip true (some cexContents) false
        HBADatabaseType.HBA_DATABASE_ALL "" none "h" "md5").contents = some cexContents) :=
  ⟨⟨20, by decide, by decide⟩, by decide⟩

/-- C2 amended: with a non-skip scheme, successful IO, a rendered rule line
holding no newline, and a current content that either already holds the
line with its first substring occurrence anchored at a line start, or does
not hold the line as a substring at all and is empty or newline-terminated,
calling pghba_ensure_host_rule_exists twice with the same arguments leaves
the content after the second call identical to the content after the first:
the second call performs no write and returns success. -/
theorem ensure_host_rule_idempotent (ip_address_type : String → IPType)
    (skip_hba : String → Bool) (contents : String) (ssl : Bool)
    (databaseType : HBADatabaseType) (database : String) (username : Option String)
    (host : String) (authenticationScheme : String)
    (hskip : skip_hba authenticationScheme = false)
    (hnl : '\n' ∉ (hbaLine ip_address_type ssl databaseType database username host
        authenticationScheme).data)
    (hcond :
      lineFoundAnchored contents (hbaLine ip_address_type ssl databaseType database
          username host authenticationScheme) = true ∨
        (firstMatchIdx contents.data (hbaLine ip_address_type ssl databaseType database
            username host authenticationScheme).data = none ∧
          (contents.data = [] ∨ ∃ b, contents.data = b ++ ['\n']))) :
    (pghba_ensure_host_rule_exists ip_address_type skip_hba true
        (pghba_ensure_host_rule_exists ip_address_type skip_hba true (some contents) ssl
            databaseType database username host authenticationScheme).contents ssl
        databaseType database username host authenticationScheme).contents =
      (pghba_ensure_host_rule_exists ip_address_type skip_hba true (some contents) ssl
          databaseType database username host authenticationScheme).contents ∧
    (pghba_ensure_host_rule_exists ip_address_type skip_hba true
        (pghba_ensure_host_rule_exists ip_address_type skip_hba true (some contents) ssl
            databaseType database username host authenticationScheme).contents ssl
        databaseType database username host authenticationScheme).wrote = false ∧
    (pghba_ensure_host_rule_exists ip_address_type skip_hba true
        (pghba_ensure_host_rule_exists ip_address_type skip_hba true (some contents) ssl
            databaseType database username host authenticationScheme).contents ssl
        databaseType database username host authenticationScheme).success = true := by
  rcases hcond with hfound | ⟨hnone, hend⟩
  · have hr1 : pghba_ensure_host_rule_exists ip_address_type skip_hba true (some contents)
        ssl databaseType database username host authenticationScheme =
        { contents := some contents, success := true, warnedSkipRule := none,
          wrote := false } := by
      simp [pghba_ensure_host_rule_exists, hskip, hfound]
    rw [hr1]
    simp [pghba_ensure_host_rule_exists, hskip, hfound]
  · have hfound1 : lineFoundAnchored contents (hbaLine ip_address_type ssl databaseType
        database username host authenticationScheme) = false := by
      unfold lineFoundAnchored
      rw [hnone]
    have hr1 : pghba_ensure_host_rule_exists ip_address_type skip_hba true (some contents)
        ssl databaseType database username host authenticationScheme =
        { contents := some (contents ++ hbaLine ip_address_type ssl databaseType database
              username host authenticationScheme ++ HBA_LINE_COMMENT ++ "\n"),
          success := true, warnedSkipRule := none, wrote := true } := by
      simp [pghba_ensure_host_rule_exists, hskip, hfound1]
    rw [hr1]
    have hassoc : contents ++ hbaLine ip_address_type ssl databaseType database username
          host authenticationScheme ++ HBA_LINE_COMMENT ++ "\n" =
        contents ++ hbaLine ip_address_type ssl databaseType database username host
          authenticationScheme ++ (HBA_LINE_COMMENT ++ "\n") :=
      String.append_assoc (contents ++ hbaLine ip_address_type ssl databaseType database
        username host authenticationScheme) HBA_LINE_COMMENT "\n"
    have hfound2 : lineFoundAnchored (contents ++ hbaLine ip_address_type ssl databaseType
        database username host authenticationScheme ++ (HBA_LINE_COMMENT ++ "\n"))
        (hbaLine ip_address_type ssl databaseType database username host
          authenticationScheme) = true :=
      lineFoundAnchored_of_append contents (hbaLine ip_address_type ssl databaseType
        database username host authenticationScheme) (HBA_LINE_COMMENT ++ "\n") hnone
        hend hnl
    rw [hassoc]
    simp [pghba_ensure_host_rule_exists, hskip, hfound2]

theorem ensure_host_rule_idempotent_witness :
    (pghba_ensure_host_rule_exists iptNone skipIsSkip true
        (pghba_ensure_host_rule_exists iptNone skipIsSkip true (some "") false
            HBADatabaseType.HBA_DATABASE_ALL "" none "h" "md5").contents false
        HBADatabaseType.HBA_DATABASE_ALL "" none "h" "md5").contents =
      (pghba_ensure_host_rule_exists iptNone skipIsSkip true (some "") false
          HBADatabaseType.HBA_DATABASE_ALL "" none "h" "md5").contents ∧
    (pghba_ensure_host_rule_exists iptNone skipIsSkip true
        (pghba_ensure_host_rule_exists iptNone skipIsSkip true (some "") false
            HBADatabaseType.HBA_DATABASE_ALL "" none "h" "md5").contents false
        HBADatabaseType.HBA_DATABASE_ALL "" none "h" "md5").wrote = false ∧
    (pghba_ensure_host_rule_exists iptNone skipIsSkip true
        (pghba_ensure_host_rule_exists iptNone skipIsSkip true (some "") false
            HBADatabaseType.HBA_DATABASE_ALL "" none "h" "md5").contents false
        HBADatabaseType.HBA_DATABASE_ALL "" none "h" "md5").success = true :=
  ensure_host_rule_idempotent iptNone skipIsSkip "" false
    HBADatabaseType.HBA_DATABASE_ALL "" none "h" "md5" rfl (by decide)
    (Or.inr ⟨by decide, Or.inl rfl⟩)

/-- C2 as stated is false: starting from file contents "x" (a file without
a trailing newline, holding no occurrence of the rule line), two identical
calls append twice; the contents after the second call differ from the
contents after the first call. -/
theorem ensure_host_rule_twice_duplicates_cex :
    ¬ ((pghba_ensure_host_rule_exists iptNone skipIsSkip true
          (pghba_ensure_host_rule_exists iptNone skipIsSkip true (some "x") false
              HBADatabaseType.HBA_DATABASE_ALL "" none "h" "md5").contents false
          HBADatabaseType.HBA_DATABASE_ALL "" none "h" "md5").contents =
        (pghba_ensure_host_rule_exists iptNone skipIsSkip true (some "x") false
            HBADatabaseType.HBA_DATABASE_ALL "" none "h" "md5").contents) := by
  decide

lemma splitLinesChars_ne_nil (l : List Char) : splitLinesChars l ≠ [] := by
  cases l with
  | nil => simp [splitLinesChars]
  | cons c cs =>
    simp only [splitLinesChars]
    split <;> simp

lemma splitLinesChars_newline_cons (L r : List Char) (h : '\n' ∉ L) :
    splitLinesChars (L ++ '\n' :: r) = L :: splitLinesChars r := by
  induction L with
  | nil => simp [splitLinesChars]
  | cons c cs ih =>
    have hc : c ≠ '\n' := fun hh => h (hh ▸ List.mem_cons_self c cs)
    have hcs : '\n' ∉ cs := fun hh => h (List.mem_cons_of_mem c hh)
    simp [splitLinesChars, hc, ih hcs]

lemma splitLinesChars_length_ge_two (l : List Char) (h : '\n' ∈ l) :
    2 ≤ (splitLinesChars l).length := by
  induction l with
  | nil => cases h
  | cons c cs ih =>
    by_cases hc : c = '\n'
    · subst hc
      have h1 : splitLinesChars cs ≠ [] := splitLinesChars_ne_nil cs
      have h2 : 1 ≤ (splitLinesChars cs).length := List.length_pos.mpr h1
      simp [splitLinesChars]
      omega
    · have hcs : '\n' ∈ cs := by
        rcases List.mem_cons.mp h with h1 | h2
        · exact absurd h1.symm hc
        · exact h2
      have h2 := ih hcs
      cases hs : splitLinesChars cs with
      | nil => exact absurd hs (splitLinesChars_ne_nil cs)
      | cons a as =>
        rw [hs] at h2
        simp only [List.length_cons] at h2
        simp [splitLinesChars, hc, hs]
        omega

lemma splitLinesChars_newline_append (b x : List Char) :
    splitLinesChars ((b ++ ['\n']) ++ x) =
      (splitLinesChars (b ++ ['\n'])).dropLast ++ splitLinesChars x := by
  induction b with
  | nil => simp [splitLinesChars]
  | cons c b ih =>
    by_cases hc : c = '\n'
    · subst hc
      have hne := splitLinesChars_ne_nil (b ++ ['\n'])
      have hl : splitLinesChars ((('\n' :: b) ++ ['\n']) ++ x) =
          [] :: splitLinesChars ((b ++ ['\n']) ++ x) := by
        simp [splitLinesChars]
      have hr : splitLinesChars (('\n' :: b) ++ ['\n']) =
          [] :: splitLinesChars (b ++ ['\n']) := by
        simp [splitLinesChars]
      rw [hl, hr, List.dropLast_cons_of_ne_nil hne, ih]
      simp
    · have hmem : '\n' ∈ b ++ ['\n'] := List.mem_append_right b (List.mem_singleton.mpr rfl)
      have hlen := splitLinesChars_length_ge_two (b ++ ['\n']) hmem
      obtain ⟨a, t, hs⟩ : ∃ a t, splitLinesChars (b ++ ['\n']) = a :: t := by
        cases hs : splitLinesChars (b ++ ['\n']) with
        | nil => exact absurd hs (splitLinesChars_ne_nil _)
        | cons a t => exact ⟨a, t, rfl⟩
      have ht : t ≠ [] := by
        rw [hs] at hlen
        simp only [List.length_cons] at hlen
        intro hte
        subst hte
        simp at hlen
      have hih : splitLinesChars ((b ++ ['\n']) ++ x) =
          (a :: t.dropLast) ++ splitLinesChars x := by
        rw [ih, hs, List.dropLast_cons_of_ne_nil ht]
      have hih2 : splitLinesChars (b ++ '\n' :: x) =
          a :: (t.dropLast ++ splitLinesChars x) := by
        simpa using hih
      simp only [List.cons_append]
      simp [splitLinesChars, hc, hih2, hs, List.dropLast_cons_of_ne_nil ht]

lemma fileLines_append_line (contents L : String)
    (hend : contents.data = [] ∨ ∃ b, contents.data = b ++ ['\n'])
    (hnl : '\n' ∉ L.data) :
    fileLines (contents ++ L ++ "\n") = fileLines contents ++ [L] := by
  have hdata : (contents ++ L ++ "\n").data = contents.data ++ (L.data ++ ['\n']) := by
    simp [String.data_append]
  have hsplit : splitLinesChars (L.data ++ ['\n']) = [L.data, []] := by
    have h0 := splitLinesChars_newline_cons L.data [] hnl
    simpa [splitLinesChars] using h0
  rcases hend with hnil | ⟨b, hb⟩
  · unfold fileLines
    rw [hdata, hnil, List.nil_append, hsplit]
    rw [if_pos (Or.inr (List.getLast?_concat L.data)), if_pos (Or.inl rfl)]
    simp [splitLinesChars, stringMk_data]
  · unfold fileLines
    rw [hdata, hb]
    rw [splitLinesChars_newline_append b (L.data ++ ['\n']), hsplit]
    have hlast1 : ((b ++ ['\n']) ++ (L.data ++ ['\n'])).getLast? = some '\n' := by
      rw [← List.append_assoc]
      exact List.getLast?_concat _
    rw [if_pos (Or.inr hlast1), if_pos (Or.inr (List.getLast?_concat b))]
    rw [List.map_append, List.map_dropLast]
    have hdl : ((splitLinesChars (b ++ ['\n'])).dropLast.map String.mk ++
          List.map String.mk [L.data, []]).dropLast =
        (splitLinesChars (b ++ ['\n'])).dropLast.map String.mk ++ [String.mk L.data] := by
      simp
    rw [List.map_dropLast] at hdl
    rw [hdl, stringMk_data]

/-- C3 amended: when pghba_ensure_host_rule_exists appends (non-skip scheme,
line not found anchored at its first occurrence, IO succeeding), the new
file content equals the old content followed by the rendered rule line, the
fixed trailing comment and a newline, nothing else, and the function
returns success; when in addition the old content is empty or
newline-terminated and the rendered line holds no newline, the new line
list is the old line list plus exactly one new line at end of file (an old
content without a final newline instead gets its last line extended by the
appended text). -/
theorem ensure_host_rule_append_frame (ip_address_type : String → IPType)
    (skip_hba : String → Bool) (contents : String) (ssl : Bool)
    (databaseType : HBADatabaseType) (database : String) (username : Option String)
    (host : String) (authenticationScheme : String)
    (hskip : skip_hba authenticationScheme = false)
    (hfound : lineFoundAnchored contents (hbaLine ip_address_type ssl databaseType
        database username host authenticationScheme) = false) :
    (pghba_ensure_host_rule_exists ip_address_type skip_hba true (some contents) ssl
        databaseType database username host authenticationScheme).contents =
      some (contents ++ hbaLine ip_address_type ssl databaseType database username host
        authenticationScheme ++ HBA_LINE_COMMENT ++ "\n") ∧
    (pghba_ensure_host_rule_exists ip_address_type skip_hba true (some contents) ssl
        databaseType database username host authenticationScheme).success = true ∧
    (pghba_ensure_host_rule_exists ip_address_type skip_hba true (some contents) ssl
        databaseType database username host authenticationScheme).wrote = true ∧
    ((contents.data = [] ∨ ∃ b, contents.data = b ++ ['\n']) →
      '\n' ∉ (hbaLine ip_address_type ssl databaseType database username host
        authenticationScheme).data →
      fileLines (contents ++ hbaLine ip_address_type ssl databaseType database username
          host authenticationScheme ++ HBA_LINE_COMMENT ++ "\n") =
        fileLines contents ++ [hbaLine ip_address_type ssl databaseType database username
          host authenticationScheme ++ HBA_LINE_COMMENT]) := by
  refine ⟨?_, ?_, ?_, ?_⟩
  · simp [pghba_ensure_host_rule_exists, hskip, hfound]
  · simp [pghba_ensure_host_rule_exists, hskip, hfound]
  · simp [pghba_ensure_host_rule_exists, hskip, hfound]
  · intro hend hnl
    have hassoc : contents ++ hbaLine ip_address_type ssl databaseType database username
          host authenticationScheme ++ HBA_LINE_COMMENT =
        contents ++ (hbaLine ip_address_type ssl databaseType database username host
          authenticationScheme ++ HBA_LINE_COMMENT) :=
      String.append_assoc contents (hbaLine ip_address_type ssl databaseType database
        username host authenticationScheme) HBA_LINE_COMMENT
    rw [hassoc]
    apply fileLines_append_line contents (hbaLine ip_address_type ssl databaseType database
      username host authenticationScheme ++ HBA_LINE_COMMENT) hend
    rw [String.data_append]
    intro hmem
    rcases List.mem_append.mp hmem with h1 | h2
    · exact hnl h1
    · exact absurd h2 (by decide)

theorem ensure_host_rule_append_frame_witness :
    (pghba_ensure_host_rule_exists iptNone skipIsSkip true (some "a\n") false
        HBADatabaseType.HBA_DATABASE_ALL "" none "h" "md5").contents =
      some ("a\n" ++ "host all all h md5" ++ HBA_LINE_COMMENT ++ "\n") ∧
    fileLines ("a\n" ++ "host all all h md5" ++ HBA_LINE_COMMENT ++ "\n") =
      fileLines "a\n" ++ ["host all all h md5" ++ HBA_LINE_COMMENT] :=
  ⟨(ensure_host_rule_append_frame iptNone skipIsSkip "a\n" false
      HBADatabaseType.HBA_DATABASE_ALL "" none "h" "md5" rfl (by decide)).1,
   (ensure_host_rule_append_frame iptNone skipIsSkip "a\n" false
      HBADatabaseType.HBA_DATABASE_ALL "" none "h" "md5" rfl (by decide)).2.2.2
     (Or.inr ⟨['a'], by decide⟩) (by decide)⟩

/-- C3 as stated is false: appending to file contents "x" (a file without a
final newline) merges the appended text into the existing last line: the
content equation holds, but the new line list is not the old line list plus
one new line, so a pre-existing line is changed. -/
theorem ensure_host_rule_append_merges_last_line_cex :
    (pghba_ensure_host_rule_exists iptNone skipIsSkip true (some "x") false
        HBADatabaseType.HBA_DATABASE_ALL "" none "h" "md5").contents =
      some ("x" ++ "host all all h md5" ++ HBA_LINE_COMMENT ++ "\n") ∧
    ¬ (fileLines ("x" ++ "host all all h md5" ++ HBA_LINE_COMMENT ++ "\n") =
        fileLines "x" ++ ["host all all h md5" ++ HBA_LINE_COMMENT]) := by
  decide

/-- C8: after a successful rule-file edit, pghba_enable_lan_cidr triggers
the configuration reload exactly when no offline data directory was
supplied and the authentication method is not a skip sentinel; with an
offline data directory no reload occurs; a reload failure makes the
function return failure through the reload-specific return site, distinct
from the return site of a failed file mutation. -/
theorem lan_reload_exactly_when_live_and_not_skip (ip_address_type : String → IPType)
    (skip_hba : String → Bool) (findHostnameLocalAddress : String → Option String)
    (fetchLocalCIDR : String → Option String) (pgsql_get_hba_file_path : Option String)
    (pgsql_reload_conf : Bool) (writeOk : Bool) (files : String → Option String)
    (ssl : Bool) (databaseType : HBADatabaseType) (database : String)
    (hostname : String) (username : Option String) (authenticationScheme : String)
    (pgdata : Option String) (ipAddr cidr hbaFilePath : String)
    (haddr : findHostnameLocalAddress hostname = some ipAddr)
    (hcidr : fetchLocalCIDR ipAddr = some cidr)
    (hpath : lanHbaFilePath pgsql_get_hba_file_path pgdata = some hbaFilePath)
    (hedit : (pghba_ensure_host_rule_exists ip_address_type skip_hba writeOk
        (files hbaFilePath) ssl databaseType database username cidr
        authenticationScheme).success = true) :
    (pghba_enable_lan_cidr ip_address_type skip_hba findHostnameLocalAddress fetchLocalCIDR
        pgsql_get_hba_file_path pgsql_reload_conf writeOk files ssl databaseType database
        hostname username authenticationScheme pgdata).reloadAttempted =
      (pgdata.isNone && ! skip_hba authenticationScheme) ∧
    ((pgdata.isNone && ! skip_hba authenticationScheme) = true → pgsql_reload_conf = false →
      (pghba_enable_lan_cidr ip_address_type skip_hba findHostnameLocalAddress
          fetchLocalCIDR pgsql_get_hba_file_path pgsql_reload_conf writeOk files ssl
          databaseType database hostname username authenticationScheme pgdata).success
        = false ∧
      (pghba_enable_lan_cidr ip_address_type skip_hba findHostnameLocalAddress
          fetchLocalCIDR pgsql_get_hba_file_path pgsql_reload_conf writeOk files ssl
          databaseType database hostname username authenticationScheme pgdata).outcome
        = LanOutcome.reloadFailed) ∧
    ((pgdata.isNone && ! skip_hba authenticationScheme) = true → pgsql_reload_conf = true →
      (pghba_enable_lan_cidr ip_address_type skip_hba findHostnameLocalAddress
          fetchLocalCIDR pgsql_get_hba_file_path pgsql_reload_conf writeOk files ssl
          databaseType database hostname username authenticationScheme pgdata).success
        = true) ∧
    ((pgdata.isNone && ! skip_hba authenticationScheme) = false →
      (pghba_enable_lan_cidr ip_address_type skip_hba findHostnameLocalAddress
          fetchLocalCIDR pgsql_get_hba_file_path pgsql_reload_conf writeOk files ssl
          databaseType database hostname username authenticationScheme pgdata).success
        = true ∧
      (pghba_enable_lan_cidr ip_address_type skip_hba findHostnameLocalAddress
          fetchLocalCIDR pgsql_get_hba_file_path pgsql_reload_conf writeOk files ssl
          databaseType database hostname username authenticationScheme pgdata).reloadAttempted
        = false) ∧
    LanOutcome.reloadFailed ≠ LanOutcome.hbaEditFailed := by
  cases hatt : (pgdata.isNone && ! skip_hba authenticationScheme) with
  | true =>
    cases hrel : pgsql_reload_conf with
    | true =>
      simp [pghba_enable_lan_cidr, haddr, hcidr, hpath, hedit, hatt, hrel]
    | false =>
      simp [pghba_enable_lan_cidr, haddr, hcidr, hpath, hedit, hatt, hrel]
  | false =>
    simp [pghba_enable_lan_cidr, haddr, hcidr, hpath, hedit, hatt]

theorem lan_reload_exactly_when_live_and_not_skip_witness :
    (pghba_enable_lan_cidr iptNone skipIsSkip findAddrSome fetchCIDRSome (some "p") false
        true filesEmpty false HBADatabaseType.HBA_DATABASE_ALL "" "h" none "md5"
        none).success = false ∧
    (pghba_enable_lan_cidr iptNone skipIsSkip findAddrSome fetchCIDRSome (some "p") false
        true filesEmpty false HBADatabaseType.HBA_DATABASE_ALL "" "h" none "md5"
        none).outcome = LanOutcome.reloadFailed :=
  (lan_reload_exactly_when_live_and_not_skip iptNone skipIsSkip findAddrSome fetchCIDRSome
      (some "p") false true filesEmpty false HBADatabaseType.HBA_DATABASE_ALL "" "h" none
      "md5" none "192.0.2.1" "10.0.0.0/24" "p" rfl rfl rfl (by decide)).2.1 (by decide) rfl

/-- C9: topology_validate adopts a snapshot only within the fixed bounds of
archiver.h (at most MAX_ARCHIVER_FORMATION_COUNT formations, each with at
most MAX_ARCHIVER_GROUP_COUNT group ids, formation names distinct and group
ids distinct within each formation), and rejects, adopting nothing, any
snapshot whose formation count or per-formation group count exceeds its
bound or that contains a duplicate formation name or a duplicate group id
within one formation. -/
theorem topology_validate_bounds :
    (∀ snapshot fa, topology_validate snapshot = some fa →
        fa.array = snapshot ∧
        fa.array.length ≤ MAX_ARCHIVER_FORMATION_COUNT ∧
        (fa.array.map ArchiverFormation.formation).Nodup ∧
        ∀ f ∈ fa.array, f.groups.length ≤ MAX_ARCHIVER_GROUP_COUNT ∧ f.groups.Nodup) ∧
    (∀ snapshot,
        (MAX_ARCHIVER_FORMATION_COUNT < snapshot.length ∨
          ¬ (snapshot.map ArchiverFormation.formation).Nodup ∨
          ∃ f ∈ snapshot,
            MAX_ARCHIVER_GROUP_COUNT < f.groups.length ∨ ¬ f.groups.Nodup) →
        topology_validate snapshot = none) := by
  constructor
  · intro snapshot fa h
    unfold topology_validate at h
    by_cases hc : snapshot.length ≤ MAX_ARCHIVER_FORMATION_COUNT ∧
        (snapshot.map ArchiverFormation.formation).Nodup ∧
        ∀ f ∈ snapshot, f.groups.length ≤ MAX_ARCHIVER_GROUP_COUNT ∧ f.groups.Nodup
    · rw [if_pos hc] at h
      obtain rfl := Option.some.inj h
      exact ⟨rfl, hc.1, hc.2.1, hc.2.2⟩
    · rw [if_neg hc] at h
      exact Option.noConfusion h
  · intro snapshot hbad
    unfold topology_validate
    have hneg : ¬ (snapshot.length ≤ MAX_ARCHIVER_FORMATION_COUNT ∧
        (snapshot.map ArchiverFormation.formation).Nodup ∧
        ∀ f ∈ snapshot, f.groups.length ≤ MAX_ARCHIVER_GROUP_COUNT ∧ f.groups.Nodup) := by
      rintro ⟨h1, h2, h3⟩
      rcases hbad with hb | hb | ⟨f, hf, hb⟩
      · omega
      · exact hb h2
      · rcases hb with hb | hb
        · have := (h3 f hf).1
          omega
        · exact hb (h3 f hf).2
    rw [if_neg hneg]

theorem topology_validate_bounds_witness : topology_validate snap13 = none :=
  topology_validate_bounds.2 snap13 (Or.inl (by decide))
